import Mathlib

/-!
Verification of the btypes repository (version-aware ctypes struct views over
Blender's memory, `src/__init__.py`).

The development shallowly embeds:
* the C-type / ctypes layout model (field sizes, alignments, offsets) used once
  `_fields_` is assigned by `initialize`;
* Python tuple comparison, as used by the `version < (2, 93)`-style predicates
  that condition field inclusion;
* the Python class/metaclass facts needed by the `isinstance` checks inside
  `initialize`;
* `initialize` itself as a transformation of a registry state;
* the `rectBase` methods (`set_position`, `get_position`, `__contains__`);
* `ListBase.__iter__` as a fuel-bounded walk that threads the (read-only)
  world state through every memory access;
* `StructBase.__new__`.
-/

set_option maxRecDepth 10000

/-! ## C types and ctypes layout

ctypes lays structure fields out the way the platform C compiler does
(64-bit System V here): every field is placed at the next offset aligned to
the field type's alignment, and the total size is rounded up to the struct's
alignment.  Pointers are 8 bytes; the pointee does not affect layout, so the
embedding's pointer type is opaque. -/

mutual

/-- A ctypes type as used by the field annotations of `src/__init__.py`:
primitive scalars (with their 64-bit Linux size and alignment), pointers
(`POINTER(...)`, `c_void_p`, `c_char_p` are modelled as `prim 8 8` or `ptr`),
fixed arrays (`c_char * n`), `Structure` subclasses and `Union` subclasses. -/
inductive CTy where
  | prim (size align : Nat)
  | ptr
  | arr (t : CTy) (n : Nat)
  | strukt (fs : CFields)
  | cunion (fs : CFields)

/-- An ordered field list `(name, type)` as assigned to `_fields_`. -/
inductive CFields where
  | nil
  | cons (name : String) (t : CTy) (rest : CFields)

end

def c_char : CTy := .prim 1 1
def c_short : CTy := .prim 2 2
def c_int : CTy := .prim 4 4
def c_uint : CTy := .prim 4 4
def c_float : CTy := .prim 4 4
def c_double : CTy := .prim 8 8
def c_void_p : CTy := .prim 8 8
def c_char_p : CTy := .prim 8 8
def c_uint64 : CTy := .prim 8 8
def c_ubyte : CTy := .prim 1 1
def c_byte : CTy := .prim 1 1
def c_bool : CTy := .prim 1 1

/-- Build a `CFields` from a plain list. -/
def CFields.ofList : List (String × CTy) → CFields
  | [] => .nil
  | (n, t) :: rest => .cons n t (CFields.ofList rest)

mutual

/-- Alignment of a ctypes type (64-bit Linux ABI, as ctypes follows it). -/
def CTy.alignment : CTy → Nat
  | .prim _ a => a
  | .ptr => 8
  | .arr t _ => t.alignment
  | .strukt fs => fs.maxAlign
  | .cunion fs => fs.maxAlign

/-- Maximum alignment over a field list (1 for the empty list). -/
def CFields.maxAlign : CFields → Nat
  | .nil => 1
  | .cons _ t rest => max t.alignment rest.maxAlign

end

/-- Round `off` up to the next multiple of `a`. -/
def roundUp (off a : Nat) : Nat := (off + a - 1) / a * a

mutual

/-- `ctypes.sizeof` of a type: scalars and pointers have fixed sizes, arrays
multiply, structs place each field at its aligned offset and round the end up
to the struct alignment, unions round their largest member up likewise. -/
def CTy.byteSize : CTy → Nat
  | .prim s _ => s
  | .ptr => 8
  | .arr t n => n * t.byteSize
  | .strukt fs => roundUp (fs.structEnd 0) (CTy.strukt fs).alignment
  | .cunion fs => roundUp fs.maxSize (CTy.cunion fs).alignment

/-- End offset after laying `fs` out from `off` with C alignment. -/
def CFields.structEnd : CFields → Nat → Nat
  | .nil, off => off
  | .cons _ t rest, off => rest.structEnd (roundUp off t.alignment + t.byteSize)

/-- Largest member size of a field list. -/
def CFields.maxSize : CFields → Nat
  | .nil => 0
  | .cons _ t rest => max t.byteSize rest.maxSize

end

/-- The `(name, offset)` table ctypes produces when laying `fs` out from
`off`: each field sits at its cumulative offset rounded up to its type's
alignment. -/
def CFields.offsets : CFields → Nat → List (String × Nat)
  | .nil, _ => []
  | .cons n t rest, off =>
      (n, roundUp off t.alignment) :: rest.offsets (roundUp off t.alignment + t.byteSize)

/-- The offsets the spec postulates: each field's offset is exactly the sum of
the sizes of the preceding fields, with no alignment adjustment. -/
def CFields.cumOffsets : CFields → Nat → List (String × Nat)
  | .nil, _ => []
  | .cons n t rest, off => (n, off) :: rest.cumOffsets (off + t.byteSize)

/-- Sum of the declared field sizes in declaration order. -/
def CFields.sumSizes : CFields → Nat
  | .nil => 0
  | .cons _ t rest => t.byteSize + rest.sumSizes

/-- Decidable check that, starting from `off`, every field's cumulative offset
is already a multiple of its alignment (so ctypes inserts no padding before
any field). -/
def CFields.selfAligned : CFields → Nat → Bool
  | .nil, _ => true
  | .cons _ t rest, off => (off % t.alignment == 0) && rest.selfAligned (off + t.byteSize)

/-- List the field names of a `CFields`. -/
def CFields.names : CFields → List String
  | .nil => []
  | .cons n _ rest => n :: rest.names

/-! ## Python tuple comparison (`version < (2, 93)` and friends)

`version` is `bpy.app.version`, a 3-tuple of naturals.  Python compares
tuples lexicographically componentwise; when one tuple is exhausted first it
compares less than the longer one. -/

/-- Python's tuple/list comparison on naturals: componentwise, with the
shorter tuple less when it is a proper prefix of the longer. -/
def pyCmp : List Nat → List Nat → Ordering
  | [], [] => .eq
  | [], _ :: _ => .lt
  | _ :: _, [] => .gt
  | a :: as, b :: bs =>
      if a < b then .lt else if b < a then .gt else pyCmp as bs

def pyLt (a b : List Nat) : Bool := pyCmp a b == .lt
def pyGt (a b : List Nat) : Bool := pyCmp a b == .gt
def pyLe (a b : List Nat) : Bool := pyCmp a b != .gt
def pyGe (a b : List Nat) : Bool := pyCmp a b != .lt

/-- Pad a version tuple with trailing zeros to length 3. -/
def padTo3 (l : List Nat) : List Nat := l ++ List.replicate (3 - l.length) 0

/-- Modelled from the spec: "comparisons must support partial tuples by
treating missing trailing components as 0 and comparing lexicographically".
Both sides are padded to 3 components, then compared lexicographically. -/
def specCmp (a b : List Nat) : Ordering := pyCmp (padTo3 a) (padTo3 b)

def specLt (a b : List Nat) : Bool := specCmp a b == .lt
def specGt (a b : List Nat) : Bool := specCmp a b == .gt
def specGe (a b : List Nat) : Bool := specCmp a b != .lt

/-! ## Python objects and the `isinstance` checks of `initialize`

`initialize` inspects each annotation value with `isinstance(value, functype)`
and `isinstance(value, Union)`.  Annotation values are either lambdas or type
objects (ctypes classes).  `isinstance(x, C)` holds iff the class of `x` is
`C` or derives from it; the class of a lambda is `function`, and the class of
a ctypes type object is its *metaclass* (`PyCStructType`, `UnionType`,
`PyCSimpleType`, ...), each of which derives from `type` — none of them
derives from the class `Union` itself. -/

/-- The Python classes relevant to `initialize`'s `isinstance` checks:
`function` (the class of lambdas, `functype` in the source), `type`, the
ctypes metaclasses, the ctypes base classes `_CData`, `Structure`, `Union`,
and `object`. -/
inductive PyClass where
  | function | pyType | simpleMeta | pointerMeta | arrayMeta
  | structMeta | unionMeta | cData | structureCls | unionCls | object
deriving DecidableEq

/-- The inheritance chain of each class (itself first, `object` last), as
CPython defines it: metaclasses derive from `type`; `Structure` and `Union`
derive from `_CData`. -/
def PyClass.ancestry : PyClass → List PyClass
  | .function => [.function, .object]
  | .pyType => [.pyType, .object]
  | .simpleMeta => [.simpleMeta, .pyType, .object]
  | .pointerMeta => [.pointerMeta, .pyType, .object]
  | .arrayMeta => [.arrayMeta, .pyType, .object]
  | .structMeta => [.structMeta, .pyType, .object]
  | .unionMeta => [.unionMeta, .structMeta, .pyType, .object]
  | .cData => [.cData, .object]
  | .structureCls => [.structureCls, .cData, .object]
  | .unionCls => [.unionCls, .cData, .object]
  | .object => [.object]

/-- The metaclass of a ctypes type object, i.e. the Python class of the type
when the type itself is used as a value. -/
def CTy.metaclass : CTy → PyClass
  | .prim _ _ => .simpleMeta
  | .ptr => .pointerMeta
  | .arr _ _ => .arrayMeta
  | .strukt _ => .structMeta
  | .cunion _ => .unionMeta

/-- An annotation value in a struct declaration: either a lambda wrapping a
type (`lam`, the source's `lambda: POINTER(...)` pattern) or a type object
used directly. -/
inductive AnnVal where
  | lam (t : CTy)
  | ty (t : CTy)

/-- The Python class of an annotation value. -/
def AnnVal.pyClassOf : AnnVal → PyClass
  | .lam _ => .function
  | .ty t => t.metaclass

/-- `isinstance(v, c)`: the class of `v` is `c` or derives from it. -/
def isinstance (v : AnnVal) (c : PyClass) : Bool :=
  c ∈ v.pyClassOf.ancestry

/-- The type an annotation value contributes to `_fields_` (for a lambda the
source calls it: `value = value()`). -/
def AnnVal.unwrap : AnnVal → CTy
  | .lam t => t
  | .ty t => t

/-! ## `initialize` (src/__init__.py lines 91-116) -/

/-- The mutable state of one `StructBase` subclass: its `__annotations__`,
its `_fields_` (unset before `initialize`), and the `_anonynous_` attribute
(sic, as spelled in the source) that `initialize` sets when it collected any
union-typed field names. -/
structure SClass where
  annots : List (String × AnnVal)
  fields : Option (List (String × CTy))
  anonynous : Option (List String)

instance : Inhabited SClass := ⟨⟨[], none, none⟩⟩

/-- The body of `initialize`'s per-struct loop: walk the annotations in
order; a lambda value is called; otherwise, when `isinstance(value, Union)`
holds, the key is appended to `anons`; every `(key, value)` is appended to
`fields`.  Then `_anonynous_` is set iff `anons` is nonempty, `_fields_` is
set iff `fields` is nonempty, and the annotations are cleared. -/
def processStruct (c : SClass) : SClass :=
  let fa := c.annots.foldl
    (fun (acc : List (String × CTy) × List String) kv =>
      if isinstance kv.2 .function then
        (acc.1 ++ [(kv.1, kv.2.unwrap)], acc.2)
      else if isinstance kv.2 .unionCls then
        (acc.1 ++ [(kv.1, kv.2.unwrap)], acc.2 ++ [kv.1])
      else
        (acc.1 ++ [(kv.1, kv.2.unwrap)], acc.2))
    ([], [])
  { annots := []
    fields := if fa.1.isEmpty then c.fields else some fa.1
    anonynous := if fa.2.isEmpty then c.anonynous else some fa.2 }

/-- The process-wide registry state: the struct classes defined so far (a
class is identified by its index), `StructBase._structs` (the indices
appended by `__init_subclass__`, in definition order), and the keys of
`ListBase._cache`. -/
structure BState where
  classes : List SClass
  registry : List Nat
  lbCache : List Nat

/-- One iteration of `initialize`'s loop: replace the class at index `i`
with its processed state. -/
def procAt (cs : List SClass) (i : Nat) : List SClass :=
  cs.set i (processStruct (cs.getD i default))

/-- `initialize`: process every class registered in `StructBase._structs`,
then clear `StructBase._structs` and `ListBase._cache`. -/
def initStructs (s : BState) : BState :=
  { classes := s.registry.foldl procAt s.classes
    registry := []
    lbCache := [] }

/-! ## Struct declarations from src/__init__.py

The field tables below transcribe the annotation lists of the named classes.
Pointer-valued fields (`POINTER(...)`, `c_void_p`, `c_char_p`) do not depend
on their pointee for layout. -/

/-- `vec2i` (x, y : c_int). -/
def vec2i : CTy := .strukt (.ofList [("x", c_int), ("y", c_int)])

/-- `vec2s` (x, y : c_short). -/
def vec2s : CTy := .strukt (.ofList [("x", c_short), ("y", c_short)])

/-- `rcti` (xmin, xmax, ymin, ymax : c_int). -/
def rcti : CTy :=
  .strukt (.ofList [("xmin", c_int), ("xmax", c_int), ("ymin", c_int), ("ymax", c_int)])

/-- `rctf` (xmin, xmax, ymin, ymax : c_float). -/
def rctf : CTy :=
  .strukt (.ofList [("xmin", c_float), ("xmax", c_float), ("ymin", c_float), ("ymax", c_float)])

/-- A typed `ListBase`: two pointers, `first` and `last`. -/
def listBaseTy : CTy := .strukt (.ofList [("first", .ptr), ("last", .ptr)])

/-- `Panel_Runtime` (lines 177-183), resolved at version `v`:
`region_ofsx`, `_pad4`, and — when `version > (2, 83)` — `custom_data_ptr`
and `block`. -/
def panelRuntimeFieldList (v : List Nat) : List (String × CTy) :=
  [("region_ofsx", c_int), ("_pad4", .arr c_char 4)] ++
  (if pyGt v [2, 83] then [("custom_data_ptr", .ptr), ("block", .ptr)] else [])

/-- `Panel` (lines 216-237), resolved at version `v`: the `_pad4` field is
declared only under `version < (2, 93)`. -/
def panelFieldList (v : List Nat) : List (String × CTy) :=
  [("next", .ptr), ("prev", .ptr), ("type", c_void_p), ("layout", c_void_p),
   ("panelname", .arr c_char 64), ("drawname", .arr c_char 64),
   ("ofs", vec2i), ("size", vec2i), ("blocksize", vec2i), ("labelofs", c_short)] ++
  (if pyLt v [2, 93] then [("_pad4", .arr c_char 4)] else []) ++
  [("flag", c_short), ("runtime_flag", c_short), ("_pad6", .arr c_char 6),
   ("sortorder", c_int), ("activedata", c_void_p), ("children", listBaseTy),
   ("runtime", .strukt (.ofList (panelRuntimeFieldList v)))]

/-- `PropertyRNA` (lines 192-206); no field is version-conditioned. -/
def propertyRNAFields : CFields := .ofList
  [("next", .ptr), ("prev", .ptr), ("magic", c_int), ("identifier", c_char_p),
   ("flag", c_int), ("flag_override", c_int), ("flag_parameter", c_short),
   ("flag_internal", c_short), ("tags", c_short), ("name", c_char_p),
   ("description", c_char_p), ("icon", c_int), ("translation_context", c_char_p),
   ("type", c_int)]

/-- `UAZoneRegion` (lines 968-972): a `Union` of `edge` and `direction`. -/
def uazoneRegion : CTy := .cunion (.ofList [("edge", c_int), ("direction", c_int)])

/-- The `__annotations__` of `AZone` (lines 975-988) as `initialize` sees
them: lambda-wrapped pointers for `next`/`prev`/`region`, plain types
elsewhere, and the union-typed `_u`. -/
def azoneAnnots : List (String × AnnVal) :=
  [("next", .lam .ptr), ("prev", .lam .ptr), ("region", .lam .ptr),
   ("type", .ty c_int), ("_u", .ty uazoneRegion), ("pos", .ty vec2s),
   ("size", .ty vec2s), ("rect", .ty rcti), ("alpha", .ty c_float)]

/-- The `AZone` class state before `initialize` runs. -/
def azoneClass : SClass := ⟨azoneAnnots, none, none⟩

/-! ## `rectBase` (lines 146-158)

The methods manipulate the scalar fields of the bound rectangle; the values
read and written through the view are modelled as integers. -/

/-- A rectangle view's four fields. -/
structure Rct where
  xmin : Int
  xmax : Int
  ymin : Int
  ymax : Int
deriving DecidableEq

/-- `rectBase.get_position`: `(self.xmin, self.ymin)`. -/
def get_position (r : Rct) : Int × Int := (r.xmin, r.ymin)

/-- `rectBase.set_position`: `xmax -= xmin - x; ymax -= ymin - y;
xmin = x; ymin = y` (the old `xmin`/`ymin` are read before being
overwritten). -/
def set_position (r : Rct) (x y : Int) : Rct :=
  { xmax := r.xmax - (r.xmin - x)
    ymax := r.ymax - (r.ymin - y)
    xmin := x
    ymin := y }

/-- Python's `<=` on pairs: lexicographic. -/
def pyPairLe (a b : Int × Int) : Bool :=
  if a.1 < b.1 then true else if b.1 < a.1 then false else a.2 ≤ b.2

/-- `rectBase.__contains__`: the chained tuple comparison
`(xmin, ymin) <= pt <= (xmax, ymax)`. -/
def rctContains (r : Rct) (pt : Int × Int) : Bool :=
  pyPairLe (r.xmin, r.ymin) pt && pyPairLe pt (r.xmax, r.ymax)

/-- Modelled from the spec: point-in-rectangle containment,
`xmin <= px <= xmax` and `ymin <= py <= ymax`. -/
def specInRect (r : Rct) (pt : Int × Int) : Bool :=
  decide (r.xmin ≤ pt.1) && decide (pt.1 ≤ r.xmax) &&
  decide (r.ymin ≤ pt.2) && decide (pt.2 ≤ r.ymax)

/-! ## `ListBase.__iter__` (lines 69-84)

Nodes live in host memory; a node view exposes `prev` and `next` pointers
(null modelled as `none`).  The iterator reads `self.first or self.last`,
dereferences the anchor for its `prev`, collects the backward chain into a
local list, yields it reversed, then yields the forward chain from the
anchor.  Every memory access threads the world state through explicitly, so
the theorems can state that iteration never changes it. -/

/-- A linked node's two pointers. -/
structure Node where
  prev : Option Nat
  next : Option Nat
deriving DecidableEq

/-- Host memory: a partial map from addresses to nodes. -/
def Mem := Nat → Option Node

/-- A list head: the `first`/`last` anchor pair. -/
structure LHead where
  first : Option Nat
  last : Option Nat

/-- The world visible to the iterator: host memory and the head struct. -/
structure World where
  mem : Mem
  head : LHead

/-- Dereference `elem.contents` at address `a`, returning the node and the
(unchanged) world. -/
def readNode (w : World) (a : Nat) : Option (Node × World) :=
  match w.mem a with
  | some n => some (n, w)
  | none => none

/-- The backward loop: `while elem_p: links_p.append(elem_p.contents);
elem_p = elem_p.contents.prev`.  `acc` is `links_p`; the walk is
fuel-bounded and fails (returns `none`) if the fuel runs out or a pointer
dangles. -/
def backCollect : World → Option Nat → List Nat → Nat → Option (List Nat × World)
  | w, none, acc, _ => some (acc, w)
  | _, some _, _, 0 => none
  | w, some a, acc, fuel + 1 =>
      match readNode w a with
      | none => none
      | some (n, w') => backCollect w' n.prev (acc ++ [a]) fuel

/-- The forward loop: `while elem_n: yield elem_n.contents;
elem_n = elem_n.contents.next`, accumulating the yields in order. -/
def fwdYield : World → Option Nat → List Nat → Nat → Option (List Nat × World)
  | w, none, acc, _ => some (acc, w)
  | _, some _, _, 0 => none
  | w, some a, acc, fuel + 1 =>
      match readNode w a with
      | none => none
      | some (n, w') => fwdYield w' n.next (acc ++ [a]) fuel

/-- One call of `ListBase.__iter__`, run to completion: anchor on
`self.first or self.last`; if the anchor is null, nothing is yielded;
otherwise read the anchor's `prev`, collect the backward chain, and yield
it reversed followed by the forward chain from the anchor. -/
def iterCall (w : World) (fuel : Nat) : Option (List Nat × World) :=
  let elemN := match w.head.first with
               | some a => some a
               | none => w.head.last
  match elemN with
  | none => some ([], w)
  | some a =>
      match readNode w a with
      | none => none
      | some (n, w1) =>
          match backCollect w1 n.prev [] fuel with
          | none => none
          | some (links, w2) =>
              match fwdYield w2 (some a) [] fuel with
              | none => none
              | some (fws, w3) => some (links.reverse ++ fws, w3)

/-- The exact backward chain from a pointer: `PrevChain m p l` holds when
following `prev` from `p` visits precisely the addresses `l` and ends at
null. -/
inductive PrevChain (m : Mem) : Option Nat → List Nat → Prop
  | nil : PrevChain m none []
  | cons (a : Nat) (n : Node) (l : List Nat) :
      m a = some n → PrevChain m n.prev l → PrevChain m (some a) (a :: l)

/-- The exact forward chain from a pointer, following `next` to null. -/
inductive NextChain (m : Mem) : Option Nat → List Nat → Prop
  | nil : NextChain m none []
  | cons (a : Nat) (n : Node) (l : List Nat) :
      m a = some n → NextChain m n.next l → NextChain m (some a) (a :: l)

/-! ## `StructBase.__new__` (lines 25-36) -/

/-- A host object passed to a view constructor: it may or may not expose
the `as_pointer()` raw-address accessor. -/
structure Srna where
  asPointer : Option Nat

/-- What `StructBase.__new__` produces: a fresh zero-filled instance, or a
view bound at a host address. -/
inductive NewResult where
  | fresh
  | at_ (addr : Nat)
deriving DecidableEq

/-- `StructBase.__new__`: with no argument, a fresh instance; with a host
object, `cls.from_address(srna.as_pointer())`, where a missing accessor
raises `Exception("Not a StructRNA instance")`. -/
def structBaseNew (srna : Option Srna) : Except String NewResult :=
  match srna with
  | none => .ok .fresh
  | some s =>
      match s.asPointer with
      | some a => .ok (.at_ a)
      | none => .error "Not a StructRNA instance"

/-! ## Theorems -/

/-- C6: `set_position` translates the rectangle without resizing it: the new
min becomes `(x, y)`, the new max becomes `old_max + (new_min - old_min)` per
axis, width and height are preserved, and on `xmin=0, xmax=10, ymin=0,
ymax=5` setting position `(3, 2)` yields `xmin=3, xmax=13, ymin=2, ymax=7`. -/
theorem set_position_translates (r : Rct) (x y : Int) :
    (set_position r x y).xmin = x ∧
    (set_position r x y).ymin = y ∧
    (set_position r x y).xmax = r.xmax + (x - r.xmin) ∧
    (set_position r x y).ymax = r.ymax + (y - r.ymin) ∧
    (set_position r x y).xmax - (set_position r x y).xmin = r.xmax - r.xmin ∧
    (set_position r x y).ymax - (set_position r x y).ymin = r.ymax - r.ymin ∧
    set_position ⟨0, 10, 0, 5⟩ 3 2 = ⟨3, 13, 2, 7⟩ := by
  refine ⟨rfl, rfl, ?_, ?_, ?_, ?_, by decide⟩ <;> simp [set_position] <;> omega

/-- C7: the code's containment test is the chained tuple comparison
`(xmin, ymin) <= pt <= (xmax, ymax)`, which is lexicographic, not
per-axis point-in-rectangle: on the rectangle `xmin=0, xmax=10, ymin=0,
ymax=10` it reports the point `(5, -1)` as contained although `ymin ≤ -1`
fails; the claim's two sample points behave as stated. -/
theorem rctContains_is_lexicographic :
    rctContains ⟨0, 10, 0, 10⟩ (5, -1) = true ∧
    specInRect ⟨0, 10, 0, 10⟩ (5, -1) = false ∧
    rctContains ⟨0, 10, 0, 10⟩ (5, 5) = true ∧
    rctContains ⟨0, 10, 0, 10⟩ (11, 5) = false := by decide

/-- C8: constructing a view from a non-None host object uses the object's
`as_pointer()` address when it exists, and raises the invalid-handle error
(producing no view) when the accessor is missing. -/
theorem structBaseNew_handle (s : Srna) :
    (∀ a, s.asPointer = some a → structBaseNew (some s) = .ok (.at_ a)) ∧
    (s.asPointer = none → structBaseNew (some s) = .error "Not a StructRNA instance") := by
  constructor
  · intro a ha
    simp [structBaseNew, ha]
  · intro ha
    simp [structBaseNew, ha]

/-- Witness for C8 at a handle exposing address 42 and a handle without the
accessor. -/
theorem structBaseNew_handle_witness :
    structBaseNew (some ⟨some 42⟩) = .ok (.at_ 42) ∧
    structBaseNew (some ⟨none⟩) = .error "Not a StructRNA instance" :=
  ⟨(structBaseNew_handle ⟨some 42⟩).1 42 rfl, (structBaseNew_handle ⟨none⟩).2 rfl⟩

/-- Python's comparison of a 3-tuple against a 2-tuple prefix: the `.lt`
outcome coincides with first padding the 2-tuple with a trailing 0. -/
lemma pyCmp_pad0_lt (v1 v2 v3 b1 b2 : Nat) :
    pyCmp [v1, v2, v3] [b1, b2] = .lt ↔ pyCmp [v1, v2, v3] [b1, b2, 0] = .lt := by
  by_cases h1 : v1 < b1
  · simp [pyCmp, h1]
  · by_cases h2 : b1 < v1
    · simp [pyCmp, h1, h2]
    · by_cases h3 : v2 < b2
      · simp [pyCmp, h1, h2, h3]
      · by_cases h4 : b2 < v2
        · simp [pyCmp, h1, h2, h3, h4]
        · rcases Nat.eq_zero_or_pos v3 with h5 | h5 <;>
            simp [pyCmp, h1, h2, h3, h4, h5]

/-- C2 counterexample: the source's predicate `version > (2, 83)` (line 181,
guarding `Panel_Runtime.custom_data_ptr`/`block`) does not treat the missing
trailing component as 0: at the active version `(2, 83, 0)` Python tuple
ordering makes the predicate true (a proper prefix compares less than the
longer tuple), while padding `(2, 83)` to `(2, 83, 0)` would make it false,
so the pad-with-0 reading mispredicts which fields the code includes. -/
theorem version_cmp_pad0_counterexample :
    pyGt [2, 83, 0] [2, 83] = true ∧
    specGt [2, 83, 0] [2, 83] = false ∧
    (panelRuntimeFieldList [2, 83, 0]).map Prod.fst =
      ["region_ofsx", "_pad4", "custom_data_ptr", "block"] := by decide

/-- C2 amended: the code compares `version` with Python tuple ordering, under
which a 2-component bound that is a proper prefix of the 3-component version
compares strictly less.  For the `<` and `>=` predicates the claim names,
this agrees with treating the missing trailing component as 0 (the padded
third component comparison can never produce "less"), so at `(2, 93, 0)` the
predicate `version < (2, 93)` is false, `version >= (2, 93)` is true, and the
resolved `Panel` layout excludes the `_pad4` branch (which a version below
`(2, 93)` includes); for strict `>` (and `<=`) predicates the two semantics
differ, as the counterexample shows. -/
theorem version_partial_cmp_amended (v1 v2 v3 b1 b2 : Nat) :
    pyLt [v1, v2, v3] [b1, b2] = specLt [v1, v2, v3] [b1, b2] ∧
    pyGe [v1, v2, v3] [b1, b2] = specGe [v1, v2, v3] [b1, b2] ∧
    pyLt [2, 93, 0] [2, 93] = false ∧
    pyGe [2, 93, 0] [2, 93] = true ∧
    ((panelFieldList [2, 93, 0]).map Prod.fst).contains "_pad4" = false ∧
    ((panelFieldList [2, 92, 0]).map Prod.fst).contains "_pad4" = true := by
  have h := pyCmp_pad0_lt v1 v2 v3 b1 b2
  have hpad : padTo3 [b1, b2] = [b1, b2, 0] := by simp [padTo3, List.replicate]
  have hpadv : padTo3 [v1, v2, v3] = [v1, v2, v3] := by simp [padTo3]
  refine ⟨?_, ?_, by decide, by decide, by decide, by decide⟩
  · simp only [pyLt, specLt, specCmp, hpad, hpadv]
    cases hx : pyCmp [v1, v2, v3] [b1, b2] <;>
      cases hy : pyCmp [v1, v2, v3] [b1, b2, 0] <;> first | rfl | simp_all
  · simp only [pyGe, specGe, specCmp, hpad, hpadv]
    cases hx : pyCmp [v1, v2, v3] [b1, b2] <;>
      cases hy : pyCmp [v1, v2, v3] [b1, b2, 0] <;> first | rfl | simp_all

/-- C9: `initialize` never records union-typed fields.  A field's annotation
value is a *class*, and `isinstance(UAZoneRegion, Union)` asks whether the
class object is an instance of `Union` — its class is the `UnionType`
metaclass, which does not derive from `Union` — so the `anons` branch never
fires.  Concretely, processing `AZone` (whose `_u` field is the union type
`UAZoneRegion`) produces all nine fields but leaves the `_anonynous_` side
list unset, contradicting the claim that it names the union-typed fields. -/
theorem azone_union_field_not_recorded :
    isinstance (.ty uazoneRegion) .unionCls = false ∧
    azoneClass.annots.map Prod.fst =
      ["next", "prev", "region", "type", "_u", "pos", "size", "rect", "alpha"] ∧
    (processStruct azoneClass).fields.map (fun l => l.map Prod.fst) =
      some ["next", "prev", "region", "type", "_u", "pos", "size", "rect", "alpha"] ∧
    (processStruct azoneClass).anonynous = none := by decide

/-- A `procAt` step keeps cleared annotations cleared at every index: the
step either rewrites an entry to a processed state (whose annotations are
empty) or leaves the entry alone. -/
lemma procAt_annots_nil (cs : List SClass) (i j : Nat)
    (h : (cs.getD i default).annots = []) :
    ((procAt cs j).getD i default).annots = [] := by
  unfold procAt
  by_cases hij : j = i
  · subst hij
    by_cases hl : j < cs.length
    · rw [List.getD_eq_getElem?_getD, List.getElem?_set_eq_of_lt _ hl]
      rfl
    · rw [List.set_eq_of_length_le (Nat.le_of_not_lt hl)]
      exact h
  · rw [List.getD_eq_getElem?_getD, List.getElem?_set_ne hij,
        ← List.getD_eq_getElem?_getD]
    exact h

/-- Cleared annotations stay cleared across the whole processing fold. -/
lemma foldl_procAt_annots_nil (l : List Nat) :
    ∀ (cs : List SClass) (i : Nat), (cs.getD i default).annots = [] →
      ((l.foldl procAt cs).getD i default).annots = [] := by
  induction l with
  | nil => intro cs i h; exact h
  | cons j rest ih =>
      intro cs i h
      exact ih (procAt cs j) i (procAt_annots_nil cs i j h)

/-- After the processing fold, every index that occurs in the processed list
has empty annotations. -/
lemma foldl_procAt_annots_of_mem (l : List Nat) :
    ∀ (cs : List SClass) (i : Nat), i ∈ l →
      ((l.foldl procAt cs).getD i default).annots = [] := by
  induction l with
  | nil => intro cs i h; cases h
  | cons j rest ih =>
      intro cs i h
      rcases List.mem_cons.mp h with rfl | hr
      · refine foldl_procAt_annots_nil rest (procAt cs i) i ?_
        unfold procAt
        by_cases hl : i < cs.length
        · rw [List.getD_eq_getElem?_getD, List.getElem?_set_eq_of_lt _ hl]
          rfl
        · rw [List.set_eq_of_length_le (Nat.le_of_not_lt hl),
              List.getD_eq_getElem?_getD, List.getElem?_eq_none (Nat.le_of_not_lt hl)]
          rfl
      · exact ih (procAt cs j) i hr

/-- C10: `initialize` consumes the registry: after one call
`StructBase._structs` and `ListBase._cache` are empty and every processed
class's annotations are cleared, so a second call iterates over an empty
registry and the whole state — in particular every class's resolved
`_fields_` — is unchanged. -/
theorem initStructs_idempotent (s : BState) :
    (initStructs s).registry = [] ∧
    (initStructs s).lbCache = [] ∧
    (∀ i ∈ s.registry, ((initStructs s).classes.getD i default).annots = []) ∧
    initStructs (initStructs s) = initStructs s := by
  refine ⟨rfl, rfl, ?_, rfl⟩
  intro i hi
  exact foldl_procAt_annots_of_mem s.registry s.classes i hi

/-- Witness for C10 on a registry of two classes (one of them `AZone`). -/
theorem initStructs_idempotent_witness :
    (1 ∈ (⟨[default, azoneClass], [0, 1], [7]⟩ : BState).registry) ∧
    (initStructs ⟨[default, azoneClass], [0, 1], [7]⟩).registry = [] ∧
    (initStructs ⟨[default, azoneClass], [0, 1], [7]⟩).lbCache = [] ∧
    ((initStructs ⟨[default, azoneClass], [0, 1], [7]⟩).classes.getD 1 default).annots = [] ∧
    initStructs (initStructs ⟨[default, azoneClass], [0, 1], [7]⟩) =
      initStructs ⟨[default, azoneClass], [0, 1], [7]⟩ := by
  have h := initStructs_idempotent ⟨[default, azoneClass], [0, 1], [7]⟩
  exact ⟨by decide, h.1, h.2.1, h.2.2.1 1 (by decide), h.2.2.2⟩

/-- Rounding up to a multiple of `a` is the identity on multiples of `a`. -/
lemma roundUp_eq_self (off a : Nat) (h : off % a = 0) : roundUp off a = off := by
  rcases Nat.eq_zero_or_pos a with rfl | ha
  · simp [Nat.mod_zero] at h
    simp [roundUp, h]
  · obtain ⟨q, rfl⟩ : ∃ q, off = a * q := ⟨off / a, (Nat.div_mul_cancel (Nat.dvd_of_mod_eq_zero h)).symm.trans (Nat.mul_comm _ _)⟩
    unfold roundUp
    rw [Nat.add_sub_assoc (Nat.one_le_iff_ne_zero.mpr (Nat.pos_iff_ne_zero.mp ha))]
    rw [Nat.mul_add_div ha, Nat.div_eq_of_lt (Nat.sub_lt ha Nat.one_pos)]
    ring

/-- When every field's cumulative offset is already aligned, ctypes places
each field exactly at the sum of its predecessors' sizes, and the end of the
struct is the start plus the sum of all sizes. -/
lemma offsets_eq_cumOffsets_of_selfAligned :
    ∀ (fs : CFields) (off : Nat), fs.selfAligned off = true →
      fs.offsets off = fs.cumOffsets off ∧ fs.structEnd off = off + fs.sumSizes
  | .nil, off, _ => ⟨rfl, by simp [CFields.structEnd, CFields.sumSizes]⟩
  | .cons n t rest, off, h => by
      rw [CFields.selfAligned, Bool.and_eq_true, beq_iff_eq] at h
      have hru : roundUp off t.alignment = off := roundUp_eq_self _ _ h.1
      obtain ⟨ho, he⟩ :=
        offsets_eq_cumOffsets_of_selfAligned rest (off + t.byteSize) h.2
      refine ⟨?_, ?_⟩
      · simp only [CFields.offsets, CFields.cumOffsets, hru, ho]
      · simp only [CFields.structEnd, CFields.sumSizes, hru, he]
        omega

/-- C3 amended: ctypes lays fields out with C alignment, so a resolved
layout is free of hidden padding exactly when every field's cumulative
offset is a multiple of its type's alignment and the total is a multiple of
the struct alignment — which the explicitly declared pad fields arrange for
the layouts that must mirror host structs; under those conditions every
offset equals the sum of the preceding sizes and the total size equals the
sum of the field sizes.  (Without them the property fails; see the
counterexample.) -/
theorem layout_unpadded_of_selfAligned (fs : CFields)
    (h1 : fs.selfAligned 0 = true)
    (h2 : fs.sumSizes % (CTy.strukt fs).alignment = 0) :
    fs.offsets 0 = fs.cumOffsets 0 ∧ (CTy.strukt fs).byteSize = fs.sumSizes := by
  obtain ⟨ho, he⟩ := offsets_eq_cumOffsets_of_selfAligned fs 0 h1
  refine ⟨ho, ?_⟩
  rw [CTy.byteSize, he]
  simpa using roundUp_eq_self _ _ h2

/-- Witness for C3 (amended) on the `Panel` layout resolved at version
`(2, 93, 0)`: its declared pad fields make every field self-aligned, so the
248-byte struct has offsets equal to cumulative sums and size equal to the
sum of the field sizes. -/
theorem layout_unpadded_witness :
    (CFields.ofList (panelFieldList [2, 93, 0])).selfAligned 0 = true ∧
    (CFields.ofList (panelFieldList [2, 93, 0])).sumSizes %
      (CTy.strukt (CFields.ofList (panelFieldList [2, 93, 0]))).alignment = 0 ∧
    ((CFields.ofList (panelFieldList [2, 93, 0])).offsets 0 =
       (CFields.ofList (panelFieldList [2, 93, 0])).cumOffsets 0 ∧
     (CTy.strukt (CFields.ofList (panelFieldList [2, 93, 0]))).byteSize =
       (CFields.ofList (panelFieldList [2, 93, 0])).sumSizes) :=
  ⟨by decide, by decide,
   layout_unpadded_of_selfAligned (CFields.ofList (panelFieldList [2, 93, 0]))
     (by decide) (by decide)⟩

/-- C3 counterexample: the `PropertyRNA` layout produced by `initialize`
has hidden alignment padding — `ctypes.sizeof` is 88 while the declared
field sizes sum to 74, and the field offsets differ from the cumulative
sums (e.g. `identifier` sits at offset 24, not 20). -/
theorem propertyRNA_hidden_padding :
    (CTy.strukt propertyRNAFields).byteSize = 88 ∧
    propertyRNAFields.sumSizes = 74 ∧
    propertyRNAFields.offsets 0 ≠ propertyRNAFields.cumOffsets 0 := by decide

/-- Running the backward loop along an exact `prev`-chain appends the chain
to the accumulator and leaves the world untouched, given enough fuel. -/
lemma backCollect_of_prevChain (w : World) {p : Option Nat} {l : List Nat}
    (hc : PrevChain w.mem p l) :
    ∀ acc fuel, l.length ≤ fuel → backCollect w p acc fuel = some (acc ++ l, w) := by
  induction hc with
  | nil =>
      intro acc fuel _
      simp [backCollect]
  | cons a n l hma _ ih =>
      intro acc fuel hf
      cases fuel with
      | zero => simp at hf
      | succ fuel' =>
          simp only [backCollect, readNode, hma]
          rw [ih (acc ++ [a]) fuel' (by simpa using Nat.lt_succ_iff.mp (Nat.lt_of_lt_of_le (Nat.lt_succ_self _) hf))]
          simp

/-- Running the forward loop along an exact `next`-chain appends the chain
to the accumulator and leaves the world untouched, given enough fuel. -/
lemma fwdYield_of_nextChain (w : World) {p : Option Nat} {l : List Nat}
    (hc : NextChain w.mem p l) :
    ∀ acc fuel, l.length ≤ fuel → fwdYield w p acc fuel = some (acc ++ l, w) := by
  induction hc with
  | nil =>
      intro acc fuel _
      simp [fwdYield]
  | cons a n l hma _ ih =>
      intro acc fuel hf
      cases fuel with
      | zero => simp at hf
      | succ fuel' =>
          simp only [fwdYield, readNode, hma]
          rw [ih (acc ++ [a]) fuel' (by simpa using Nat.lt_succ_iff.mp (Nat.lt_of_lt_of_le (Nat.lt_succ_self _) hf))]
          simp

/-- The backward loop never changes the world: a successful run returns the
world it was given. -/
lemma backCollect_world (fuel : Nat) :
    ∀ (w : World) (p : Option Nat) (acc l : List Nat) (w' : World),
      backCollect w p acc fuel = some (l, w') → w' = w := by
  induction fuel with
  | zero =>
      intro w p acc l w' h
      cases p with
      | none => simp [backCollect] at h; exact h.2.symm
      | some a => simp [backCollect] at h
  | succ fuel' ih =>
      intro w p acc l w' h
      cases p with
      | none => simp [backCollect] at h; exact h.2.symm
      | some a =>
          rw [backCollect] at h
          cases hm : w.mem a with
          | none => simp only [readNode, hm] at h; simp at h
          | some n =>
              simp only [readNode, hm] at h
              exact ih w n.prev (acc ++ [a]) l w' h

/-- The forward loop never changes the world. -/
lemma fwdYield_world (fuel : Nat) :
    ∀ (w : World) (p : Option Nat) (acc l : List Nat) (w' : World),
      fwdYield w p acc fuel = some (l, w') → w' = w := by
  induction fuel with
  | zero =>
      intro w p acc l w' h
      cases p with
      | none => simp [fwdYield] at h; exact h.2.symm
      | some a => simp [fwdYield] at h
  | succ fuel' ih =>
      intro w p acc l w' h
      cases p with
      | none => simp [fwdYield] at h; exact h.2.symm
      | some a =>
          rw [fwdYield] at h
          cases hm : w.mem a with
          | none => simp only [readNode, hm] at h; simp at h
          | some n =>
              simp only [readNode, hm] at h
              exact ih w n.next (acc ++ [a]) l w' h

/-- Reading a node returns the world unchanged. -/
lemma readNode_world (w : World) (a : Nat) (n : Node) (w1 : World)
    (h : readNode w a = some (n, w1)) : w1 = w := by
  cases hm : w.mem a with
  | none => simp only [readNode, hm] at h; exact absurd h (by simp)
  | some n' =>
      simp only [readNode, hm, Option.some.injEq, Prod.mk.injEq] at h
      exact h.2.symm

/-- A completed iteration never changes the world. -/
lemma iterCall_world (w : World) (fuel : Nat) (l : List Nat) (w' : World)
    (h : iterCall w fuel = some (l, w')) : w' = w := by
  simp only [iterCall] at h
  split at h
  · simp only [Option.some.injEq, Prod.mk.injEq] at h
    exact h.2.symm
  · split at h
    · exact absurd h (by simp)
    · rename_i n w1 heq
      split at h
      · exact absurd h (by simp)
      · rename_i lw2 links w2 heq2
        split at h
        · exact absurd h (by simp)
        · rename_i lw3 fws w3 heq3
          simp only [Option.some.injEq, Prod.mk.injEq] at h
          have h1 : w1 = w := readNode_world w _ n w1 heq
          have h2 : w2 = w1 := backCollect_world fuel w1 n.prev [] links w2 heq2
          have h3 : w3 = w2 := fwdYield_world fuel w2 _ [] fws w3 heq3
          rw [← h.2, h3, h2, h1]

/-- C1: with a non-null `first` anchor, one iteration walks backward from
`first` along `prev` (collecting `bs`), yields those nodes reversed
(outermost first), then walks forward from `first` along `next` (yielding
`fs`, which starts at `first`); when the combined sequence has no
duplicates, every node is yielded exactly once. -/
theorem iter_two_phase (w : World) (A : Nat) (n : Node) (bs fs : List Nat) (fuel : Nat)
    (hfirst : w.head.first = some A)
    (hA : w.mem A = some n)
    (hback : PrevChain w.mem n.prev bs)
    (hfwd : NextChain w.mem (some A) fs)
    (hb : bs.length ≤ fuel) (hf : fs.length ≤ fuel)
    (hnd : (bs.reverse ++ fs).Nodup) :
    iterCall w fuel = some (bs.reverse ++ fs, w) ∧
    ∀ x ∈ bs.reverse ++ fs, (bs.reverse ++ fs).count x = 1 := by
  have hbc := backCollect_of_prevChain w hback [] fuel hb
  have hfc := fwdYield_of_nextChain w hfwd [] fuel hf
  rw [List.nil_append] at hbc hfc
  refine ⟨?_, fun x hx => List.count_eq_one_of_mem hnd hx⟩
  simp only [iterCall, hfirst, readNode, hA, hbc, hfc]

/-- The memory of the two-node example list: node 1 (= `A`) has no `prev`
and `next` = 2 (= `B`); node 2 has `prev` = 1 and no `next`. -/
def exMemAB : Mem := fun a =>
  if a = 1 then some ⟨none, some 2⟩ else if a = 2 then some ⟨some 1, none⟩ else none

/-- Head with `first` = node 1 over the two-node example memory. -/
def exWorldAB : World := ⟨exMemAB, ⟨some 1, some 2⟩⟩

/-- Witness for C1: iterating the two-node list `A = 1, B = 2` yields
exactly `[1, 2]`, each address once. -/
theorem iter_two_phase_witness :
    iterCall exWorldAB 2 = some ([1, 2], exWorldAB) ∧
    ∀ x ∈ ([1, 2] : List Nat), ([1, 2] : List Nat).count x = 1 :=
  iter_two_phase exWorldAB 1 ⟨none, some 2⟩ [] [1, 2] 2 rfl rfl
    PrevChain.nil
    (NextChain.cons 1 ⟨none, some 2⟩ [2] rfl
      (NextChain.cons 2 ⟨some 1, none⟩ [] rfl NextChain.nil))
    (by decide) (by decide) (by decide)

/-- C4: with `first` null and `last` = some node `Z`, the iterator anchors
on `last`; the produced sequence is the backward chain of `Z` reversed
followed by the forward chain from `Z`, and it contains `Z`. -/
theorem iter_last_fallback (w : World) (Z : Nat) (n : Node) (bs fs : List Nat) (fuel : Nat)
    (hfirst : w.head.first = none)
    (hlast : w.head.last = some Z)
    (hZ : w.mem Z = some n)
    (hback : PrevChain w.mem n.prev bs)
    (hfwd : NextChain w.mem (some Z) fs)
    (hb : bs.length ≤ fuel) (hf : fs.length ≤ fuel) :
    iterCall w fuel = some (bs.reverse ++ fs, w) ∧ Z ∈ bs.reverse ++ fs := by
  have hbc := backCollect_of_prevChain w hback [] fuel hb
  have hfc := fwdYield_of_nextChain w hfwd [] fuel hf
  rw [List.nil_append] at hbc hfc
  constructor
  · simp only [iterCall, hfirst, hlast, readNode, hZ, hbc, hfc]
  · cases hfwd with
    | cons _ n' l _ _ =>
        exact List.mem_append_right _ (List.mem_cons_self Z l)

/-- Memory holding the single node 7 with null `prev` and `next`. -/
def exMemZ : Mem := fun a => if a = 7 then some ⟨none, none⟩ else none

/-- Head with `first` absent and `last` = node 7. -/
def exWorldZ : World := ⟨exMemZ, ⟨none, some 7⟩⟩

/-- Witness for C4: with only `last` = 7 populated, iteration yields `[7]`,
which contains 7. -/
theorem iter_last_fallback_witness :
    iterCall exWorldZ 1 = some ([7], exWorldZ) ∧ 7 ∈ ([7] : List Nat) :=
  iter_last_fallback exWorldZ 7 ⟨none, none⟩ [] [7] 1 rfl rfl rfl
    PrevChain.nil
    (NextChain.cons 7 ⟨none, none⟩ [] rfl NextChain.nil)
    (by decide) (by decide)

/-- C5: iteration is restartable and stateless: a completed call leaves the
world (host memory and the head's anchors) exactly as it found it, so a
second, independent call re-walks from the anchors and yields the identical
sequence. -/
theorem iter_restartable (w w1 : World) (o1 : List Nat) (fuel : Nat)
    (h1 : iterCall w fuel = some (o1, w1)) :
    w1 = w ∧ iterCall w1 fuel = some (o1, w1) := by
  have hw : w1 = w := iterCall_world w fuel o1 w1 h1
  subst hw
  exact ⟨rfl, h1⟩

/-- The memory of the restartability example: nodes 3 and 4 linked. -/
def exMemC5 : Mem := fun a =>
  if a = 3 then some ⟨none, some 4⟩ else if a = 4 then some ⟨some 3, none⟩ else none

/-- Head with `first` = node 3 over the restartability example memory. -/
def exWorldC5 : World := ⟨exMemC5, ⟨some 3, none⟩⟩

/-- Witness for C5: iterating the 3-4 list returns `[3, 4]` and the
unchanged world, and the repeated call yields the identical sequence. -/
theorem iter_restartable_witness :
    iterCall exWorldC5 2 = some ([3, 4], exWorldC5) ∧
    (exWorldC5 = exWorldC5 ∧ iterCall exWorldC5 2 = some ([3, 4], exWorldC5)) :=
  ⟨rfl, iter_restartable exWorldC5 exWorldC5 [3, 4] 2 rfl⟩
